import Mathlib

/-!
# Verification of the LittleLinuxKernel persistent state engine

Shallow embedding of the persistent store of `LinuxKernel.py`:
the package registry (`DatabaseManager`), the hidden blob store, the
container lifecycle manager (`ContainerEngine`), the repair procedure and
the full reset command.  Tables are modelled as lists of rows in insertion
order (SQLite returns rows in rowid = insertion order when no ORDER BY is
given, and `fetchone` takes the first one); timestamps (`time.time()`) are
modelled as a `Nat` passed explicitly to each operation that reads the
clock; random values (container/image ids, pids) are modelled as explicit
arguments, with freshness hypotheses where the source's retry loop
guarantees them.
-/

/-- Row of the `packages` table (`name` is the primary key). -/
structure Package where
  name : String
  version : String
  size : Nat
  filename : String
  installed_time : Nat
  auto_installed : Bool
  simulated : Bool
deriving DecidableEq, Repr

/-- Row of the `dependencies` table: composite key `(package, depends_on)`. -/
structure Dependency where
  package : String
  depends_on : String
deriving DecidableEq, Repr

/-- Row of the `hidden_files` table (`path` is the primary key).
`content` is the BLOB payload as a byte list; `permissions` defaults to
`rw-r--r--` in the schema. -/
structure HiddenFile where
  path : String
  content : List Nat
  size : Nat
  created_time : Nat
  modified_time : Nat
  permissions : String
deriving DecidableEq, Repr

/-- Row of the `images` table (`id` is the primary key). -/
structure Image where
  id : String
  name : String
  tag : String
  size : Nat
  created_time : Nat
  base_image : Option String
  layers : String
deriving DecidableEq, Repr

/-- Row of the `containers` table (`id` primary key, `name` UNIQUE).
The source stores `ip_address` as the string `f"172.17.0.{octet}"` where
only the final octet varies (`len(network['bridge0']['containers']) + 2`);
we model the varying octet as a `Nat`.  `ports`, `volumes` and `env_vars`
hold the `json.dumps`-serialized payloads, modelled as opaque strings. -/
structure Container where
  id : String
  name : String
  image_id : String
  status : String
  created_time : Nat
  started_time : Option Nat
  pid : Option Nat
  ip_address : Nat
  ports : String
  volumes : String
  env_vars : String
  command : String
deriving DecidableEq, Repr

/-- Row of the `volumes` table (`name` is the primary key). -/
structure Volume where
  name : String
  mountpoint : String
  size : Nat
  created_time : Nat
deriving DecidableEq, Repr

/-- The logical content of the SQLite database: one list of rows per
table, in insertion order.  `metadata` rows are key/value pairs. -/
structure DB where
  packages : List Package
  dependencies : List Dependency
  metadata : List (String × String)
  hidden_files : List HiddenFile
  images : List Image
  containers : List Container
  volumes : List Volume
deriving DecidableEq, Repr

/-- A database with every table empty: the state produced by
`_init_database` (plus the container tables) on a fresh file. -/
def DB.empty : DB :=
  { packages := [], dependencies := [], metadata := [], hidden_files := []
    images := [], containers := [], volumes := [] }

namespace DatabaseManager

/-- Model of `DatabaseManager.remove_package`: `DELETE FROM packages WHERE name = ?`
then `DELETE FROM dependencies WHERE package = ? OR depends_on = ?`,
committed together; returns `True`. -/
def remove_package (name : String) (db : DB) : DB :=
  { db with
    packages := db.packages.filter (fun p => !(p.name == name))
    dependencies := db.dependencies.filter
      (fun d => !(d.package == name || d.depends_on == name)) }

/-- Model of `DatabaseManager.add_dependency`: `INSERT OR IGNORE` on the composite
key `(package, depends_on)`. -/
def add_dependency (package depends_on : String) (db : DB) : DB :=
  if db.dependencies.any (fun d => d.package == package && d.depends_on == depends_on)
  then db
  else { db with dependencies := db.dependencies ++ [⟨package, depends_on⟩] }

/-- Model of `DatabaseManager.add_package`: `INSERT OR REPLACE INTO packages`, all
fields rewritten, `installed_time` set to the current time. -/
def add_package (name version : String) (size : Nat) (filename : String)
    (auto_installed simulated : Bool) (now : Nat) (db : DB) : DB :=
  { db with
    packages := db.packages.filter (fun p => !(p.name == name)) ++
      [⟨name, version, size, filename, now, auto_installed, simulated⟩] }

/-- Model of `DatabaseManager.get_orphaned_packages`: collects the names of
auto-installed packages, the names of manually installed packages, takes
the union of the `depends_on` targets declared by each manually installed
package (one single-level lookup per package), and returns the
auto-installed names not in that union. -/
def get_orphaned_packages (db : DB) : List String :=
  let auto_installed :=
    (db.packages.filter (fun p => p.auto_installed)).map Package.name
  let manually_installed :=
    (db.packages.filter (fun p => !p.auto_installed)).map Package.name
  let needed :=
    (db.dependencies.filter
      (fun d => manually_installed.contains d.package)).map Dependency.depends_on
  auto_installed.filter (fun pkg => !(needed.contains pkg))

/-- Model of `DatabaseManager.write_hidden_file`: `INSERT OR REPLACE INTO
hidden_files (path, content, size, created_time, modified_time)` with
`size = len(content)` and `time.time()` supplied for BOTH timestamps; a
replaced row is deleted and re-inserted, so `permissions` also falls back
to the schema default. -/
def write_hidden_file (path : String) (content : List Nat) (now : Nat)
    (db : DB) : DB :=
  { db with
    hidden_files := db.hidden_files.filter (fun f => !(f.path == path)) ++
      [⟨path, content, content.length, now, now, "rw-r--r--"⟩] }

/-- Model of `DatabaseManager.read_hidden_file`: `SELECT content FROM hidden_files
WHERE path = ?`, `None` when absent. -/
def read_hidden_file (path : String) (db : DB) : Option (List Nat) :=
  (db.hidden_files.find? (fun f => f.path == path)).map HiddenFile.content

end DatabaseManager

/-- Entry of the live (in-memory, non-persisted) bridge network map
`network['bridge0']['containers']`: value stored per running container id. -/
structure NetEntry where
  name : String
  ip : Nat
  pid : Nat
deriving DecidableEq, Repr

/-- State of a `ContainerEngine`: the shared database plus the in-memory
`bridge0` container map (container id → entry), kept in insertion order as
a Python dict is. -/
structure EngineState where
  db : DB
  network : List (String × NetEntry)
deriving DecidableEq, Repr

namespace ContainerEngine

/-- Resolution by `SELECT ... FROM containers WHERE name = ? OR id = ?` and
`fetchone()`: the first row (insertion order) whose name or id matches. -/
def findContainer (st : EngineState) (name_or_id : String) : Option Container :=
  st.db.containers.find? (fun c => c.name == name_or_id || c.id == name_or_id)

/-- Store `entry` under key `cid` in the live network map (Python dict
assignment: overwrite in place when the key exists, else append). -/
def netStore (cid : String) (entry : NetEntry)
    (net : List (String × NetEntry)) : List (String × NetEntry) :=
  if net.any (fun kv => kv.1 == cid) then
    net.map (fun kv => if kv.1 == cid then (cid, entry) else kv)
  else net ++ [(cid, entry)]

/-- Model of `del network['bridge0']['containers'][cid]`, guarded by an `in` check. -/
def netDrop (cid : String) (net : List (String × NetEntry)) :
    List (String × NetEntry) :=
  net.filter (fun kv => !(kv.1 == cid))

/-- Model of `ContainerEngine.create_container`.  Resolves `image` by
`WHERE name = ? OR id = ?`; fails (returns `none`, no mutation) when the
image is absent or when `name` already names a container.  Otherwise
inserts a row with the supplied fresh id `cid` (the source draws ids at
random and retries until absent from the table; freshness is a hypothesis
where needed), status `created`, no pid, no started time, and ip octet
`len(network['bridge0']['containers']) + 2` — the live map of RUNNING
containers, not the container table. -/
def create_container (name image command : String)
    (ports volumes env_vars : String) (cid : String) (now : Nat)
    (st : EngineState) : Option String × EngineState :=
  match st.db.images.find? (fun i => i.name == image || i.id == image) with
  | none => (none, st)
  | some img =>
    if st.db.containers.any (fun c => c.name == name) then
      (none, st)
    else
      let ip_addr := st.network.length + 2
      let row : Container :=
        { id := cid, name := name, image_id := img.id, status := "created"
          created_time := now, started_time := none, pid := none
          ip_address := ip_addr, ports := ports, volumes := volumes
          env_vars := env_vars, command := command }
      (some cid, { st with db := { st.db with containers := st.db.containers ++ [row] } })

/-- Model of `ContainerEngine.start_container`: resolves by name-or-id (`False`
when absent), then `UPDATE containers SET status='running',
started_time=now, pid=? WHERE id = ?` with a freshly drawn pid, and
registers the container in the live network map. -/
def start_container (name_or_id : String) (pid now : Nat)
    (st : EngineState) : Bool × EngineState :=
  match findContainer st name_or_id with
  | none => (false, st)
  | some c =>
    let containers := st.db.containers.map (fun r =>
      if r.id == c.id then
        { r with status := "running", started_time := some now, pid := some pid }
      else r)
    (true,
      { db := { st.db with containers := containers }
        network := netStore c.id ⟨c.name, c.ip_address, pid⟩ st.network })

/-- Model of `ContainerEngine.stop_container`: resolves by name-or-id (`False`
when absent), then `UPDATE containers SET status='stopped', pid=NULL
WHERE id = ?` — applied whatever the current status is — and removes the
id from the live network map. -/
def stop_container (name_or_id : String) (st : EngineState) :
    Bool × EngineState :=
  match findContainer st name_or_id with
  | none => (false, st)
  | some c =>
    let containers := st.db.containers.map (fun r =>
      if r.id == c.id then { r with status := "stopped", pid := none } else r)
    (true,
      { db := { st.db with containers := containers }
        network := netDrop c.id st.network })

/-- Model of `ContainerEngine.remove_container`: resolves by name-or-id (`False`
when absent); fails when the row's status is `running` and `force` is not
set; otherwise `DELETE FROM containers WHERE id = ?`.  The live network
map is not touched. -/
def remove_container (name_or_id : String) (force : Bool)
    (st : EngineState) : Bool × EngineState :=
  match findContainer st name_or_id with
  | none => (false, st)
  | some c =>
    if c.status == "running" && !force then
      (false, st)
    else
      (true,
        { st with db := { st.db with
            containers := st.db.containers.filter (fun r => !(r.id == c.id)) } })

/-- Model of `ContainerEngine.list_containers`: every row when `all_containers`,
else only the rows with status `running`, ordered by `created_time DESC`
(`mergeSort` is stable, matching SQLite's rowid tiebreak). -/
def list_containers (all_containers : Bool) (st : EngineState) :
    List Container :=
  let rows :=
    if all_containers then st.db.containers
    else st.db.containers.filter (fun c => c.status == "running")
  rows.mergeSort (fun a b => Nat.ble b.created_time a.created_time)

/-- Create the containers listed in `pairs` — each entry a (name, fresh
id) choice — one after another with no other operation interleaved,
collecting the ip octet allocated to each container that was actually
created (by `create_container`, the octet recorded for a successful
creation from state `st` is exactly `st.network.length + 2`, the value
stored in the inserted row). -/
def runCreate (image command : String) (now : Nat) :
    List (String × String) → EngineState → List Nat × EngineState
  | [], st => ([], st)
  | (n, i) :: rest, st =>
    match create_container n image command "[]" "[]" "{}" i now st with
    | (none, st1) => runCreate image command now rest st1
    | (some _, st1) =>
      let r := runCreate image command now rest st1
      ((st.network.length + 2) :: r.1, r.2)

/-- Like `runCreate`, but each successfully created container is started
(registering it in the live network map) before the next creation. -/
def runCreateStart (image command : String) (pid now : Nat) :
    List (String × String) → EngineState → List Nat × EngineState
  | [], st => ([], st)
  | (n, i) :: rest, st =>
    match create_container n image command "[]" "[]" "{}" i now st with
    | (none, st1) => runCreateStart image command pid now rest st1
    | (some _, st1) =>
      let st2 := (start_container n pid now st1).2
      let r := runCreateStart image command pid now rest st2
      ((st.network.length + 2) :: r.1, r.2)

/-- The names and ids chosen for a creation run are pairwise distinct and
collide with no container name, container id or live network key of the
starting state: the postcondition of the source's random-retry id
generation together with the scenario's choice of fresh names. -/
def FreshRun (st : EngineState) (pairs : List (String × String)) : Prop :=
  (pairs.map Prod.fst ++ pairs.map Prod.snd).Nodup ∧
  ∀ s ∈ pairs.map Prod.fst ++ pairs.map Prod.snd,
    (∀ c ∈ st.db.containers, c.name ≠ s ∧ c.id ≠ s) ∧
    ∀ kv ∈ st.network, kv.1 ≠ s

/-- Engine states reachable by the container lifecycle operations from a
fresh engine (empty `containers` table, empty live network map), with
arbitrary arguments — including arbitrary id/pid/clock draws. -/
inductive Reachable : EngineState → Prop where
  | init (db : DB) (hc : db.containers = []) : Reachable ⟨db, []⟩
  | create (name image command ports volumes env_vars cid : String)
      (now : Nat) {st : EngineState} : Reachable st →
      Reachable (create_container name image command ports volumes env_vars
        cid now st).2
  | start (name_or_id : String) (pid now : Nat) {st : EngineState} :
      Reachable st → Reachable (start_container name_or_id pid now st).2
  | stop (name_or_id : String) {st : EngineState} :
      Reachable st → Reachable (stop_container name_or_id st).2

/-- The row invariant of the containers table: every status is one of
`created` / `running` / `stopped`, and `pid` is non-null only on a
`running` row. -/
def EngineInv (st : EngineState) : Prop :=
  ∀ c ∈ st.db.containers,
    (c.status = "created" ∨ c.status = "running" ∨ c.status = "stopped") ∧
    (c.pid ≠ none → c.status = "running")

end ContainerEngine

/-- One statement of `old_conn.iterdump()` carrying a data row.  The
schema (`CREATE TABLE`) statements of the dump are those of
`_init_database` / `_init_container_tables` and replay unconditionally
into the fresh file; the data statements each insert one row and are
replayed inside `try: new_conn.execute(line) except sqlite3.Error:
continue`, so each may individually fail and be skipped. -/
inductive DumpStmt where
  | pkg (p : Package)
  | dep (d : Dependency)
  | meta (kv : String × String)
  | hid (f : HiddenFile)
  | img (i : Image)
  | ctr (c : Container)
  | vol (v : Volume)
deriving DecidableEq, Repr

namespace DatabaseManager

/-- Replay of the dump into the fresh file: the rows whose insert
statement succeeded (`ok`), table by table, in dump order. -/
def replayDump (ok : DumpStmt → Bool) (db : DB) : DB :=
  { packages := db.packages.filter (fun p => ok (.pkg p))
    dependencies := db.dependencies.filter (fun d => ok (.dep d))
    metadata := db.metadata.filter (fun kv => ok (.meta kv))
    hidden_files := db.hidden_files.filter (fun f => ok (.hid f))
    images := db.images.filter (fun i => ok (.img i))
    containers := db.containers.filter (fun c => ok (.ctr c))
    volumes := db.volumes.filter (fun v => ok (.vol v)) }

/-- Model of `DatabaseManager.repair`.  The connection is closed and
`shutil.copy2` writes a timestamped backup of the database file (the file
always exists for a live connection, so the copy always happens — the
returned flag records that the backup exists).  Then the dump/replay: if
the dump loop itself aborts with a `sqlite3.Error` (`dumpAborts`), the
partial fresh file and the original are deleted and `_init_database`
rebuilds an empty schema; otherwise every dump statement is executed into
the fresh file, statements failing individually are skipped (`ok` records
which succeed), and `os.replace` swaps the fresh file into place. -/
def repair (ok : DumpStmt → Bool) (dumpAborts : Bool) (db : DB) :
    DB × Bool :=
  if dumpAborts then (DB.empty, true)
  else (replayDump ok db, true)

/-- Per-table logical row counts, in schema order. -/
def logicalCounts (db : DB) : List Nat :=
  [db.packages.length, db.dependencies.length, db.metadata.length,
   db.hidden_files.length, db.images.length, db.containers.length,
   db.volumes.length]

end DatabaseManager

namespace KernelAddCLI

/-- Python `str.strip()` with no argument: remove leading and trailing
whitespace characters. -/
def strip (s : String) : String :=
  ⟨(s.data.dropWhile Char.isWhitespace).reverse.dropWhile Char.isWhitespace
    |>.reverse⟩

/-- Model of `KernelAddCLI._cmd_dbclean` (the full-reset command): reads a
confirmation line, strips it, and unless it equals exactly
`DELETE EVERYTHING` returns without touching the store; with it, runs
`DELETE FROM` on every table (packages, dependencies, hidden_files,
containers, images, volumes, metadata) and commits. -/
def cmd_dbclean (confirm : String) (db : DB) : DB :=
  if strip confirm == "DELETE EVERYTHING" then DB.empty else db

end KernelAddCLI

/-! ## Concrete fixtures used by counterexamples and witnesses -/

/-- A concrete image row, as `create_image "img"` would persist it. -/
def imgW : Image :=
  { id := "img_1", name := "img", tag := "latest", size := 100000000
    created_time := 0, base_image := none, layers := "[]" }

/-- A database holding just the image `imgW`. -/
def dbW : DB := { DB.empty with images := [imgW] }

/-- A fresh engine over `dbW`: no containers, empty live network map. -/
def stW : EngineState := ⟨dbW, []⟩

/-! ## C1 — IP allocation -/

/-- The ip octet recorded by `runCreate` for a successful creation is the
octet of the row that `create_container` appended. -/
theorem create_container_ip (name image command ports volumes env_vars
    cid : String) (now : Nat) (st : EngineState) (c : String)
    (st' : EngineState)
    (h : ContainerEngine.create_container name image command ports volumes
      env_vars cid now st = (some c, st')) :
    ∃ row : Container,
      st'.db.containers = st.db.containers ++ [row] ∧
      row.ip_address = st.network.length + 2 ∧
      row.status = "created" := by
  unfold ContainerEngine.create_container at h
  split at h
  · exact absurd (congrArg Prod.fst h) (by simp)
  · split at h
    · exact absurd (congrArg Prod.fst h) (by simp)
    · have h2 := (congrArg Prod.snd h).symm
      subst h2
      exact ⟨_, rfl, rfl, rfl⟩

/-- A creation step from state `st` with a fresh name and id: explicit
form of the successful `create_container` result. -/
theorem create_container_fresh_eq (n image command i : String) (now : Nat)
    (st : EngineState) (img : Image)
    (himg : st.db.images.find? (fun im => im.name == image || im.id == image)
      = some img)
    (hname : ∀ c ∈ st.db.containers, c.name ≠ n) :
    ContainerEngine.create_container n image command "[]" "[]" "{}" i now st
      = (some i,
        ⟨{ st.db with containers := st.db.containers ++
          [{ id := i, name := n, image_id := img.id, status := "created"
             created_time := now, started_time := none, pid := none
             ip_address := st.network.length + 2, ports := "[]"
             volumes := "[]", env_vars := "{}", command := command }] }
        , st.network⟩) := by
  have hany : (st.db.containers.any fun c => c.name == n) = false := by
    simp only [List.any_eq_false]
    intro c hc
    simpa using hname c hc
  unfold ContainerEngine.create_container
  rw [himg]
  simp only [hany, if_false, Bool.false_eq_true]

/-- Starting the just-created container (last row, fresh name and id):
explicit form of the `start_container` result. -/
theorem start_container_append_eq (x : String) (pid now : Nat)
    (st : EngineState) (row : Container)
    (hold : ∀ c ∈ st.db.containers, c.name ≠ x ∧ c.id ≠ x)
    (hrow : row.name = x)
    (hnet : ∀ kv ∈ st.network, kv.1 ≠ row.id) :
    ContainerEngine.start_container x pid now
      ⟨{ st.db with containers := st.db.containers ++ [row] }, st.network⟩
      = (true,
        ⟨{ st.db with containers :=
            (st.db.containers ++ [row]).map (fun r =>
              if r.id == row.id then
                { r with
                    status := "running"
                    started_time := some now
                    pid := some pid }
              else r) }
        , st.network ++ [(row.id, ⟨row.name, row.ip_address, pid⟩)]⟩) := by
  have hfind : ContainerEngine.findContainer
      ⟨{ st.db with containers := st.db.containers ++ [row] }, st.network⟩ x
      = some row := by
    unfold ContainerEngine.findContainer
    rw [show ({ st.db with containers := st.db.containers ++ [row] }
        : DB).containers = st.db.containers ++ [row] from rfl]
    rw [List.find?_append]
    have h1 : st.db.containers.find?
        (fun c => c.name == x || c.id == x) = none := by
      rw [List.find?_eq_none]
      intro c hc
      have := hold c hc
      simp [this.1, this.2]
    rw [h1]
    simp [hrow]
  have hany : (st.network.any fun kv => kv.1 == row.id) = false := by
    simp only [List.any_eq_false]
    intro kv hkv
    simpa using hnet kv hkv
  unfold ContainerEngine.start_container
  rw [hfind]
  unfold ContainerEngine.netStore
  simp only [hany, if_false, Bool.false_eq_true]

/-- Create-then-start runs: when `image` resolves and the chosen names
and ids are fresh, every creation succeeds and the allocated ip octets
are consecutive, starting at (live network size + 2). -/
theorem runCreateStart_octets (image command : String) (pid now : Nat)
    (pairs : List (String × String)) :
    ∀ st : EngineState,
      (st.db.images.find? (fun im => im.name == image || im.id == image)).isSome →
      ContainerEngine.FreshRun st pairs →
      (ContainerEngine.runCreateStart image command pid now pairs st).1 =
        List.range' (st.network.length + 2) pairs.length := by
  induction pairs with
  | nil => intro st _ _; rfl
  | cons hd rest ih =>
    obtain ⟨n, i⟩ := hd
    intro st himg hf
    obtain ⟨img, himg'⟩ := Option.isSome_iff_exists.mp himg
    have hnA : n ∈ ((n, i) :: rest).map Prod.fst ++
        ((n, i) :: rest).map Prod.snd := by simp
    have hiA : i ∈ ((n, i) :: rest).map Prod.fst ++
        ((n, i) :: rest).map Prod.snd := by simp
    have hcr := create_container_fresh_eq n image command i now st img himg'
      (fun c hc => ((hf.2 n hnA).1 c hc).1)
    set row : Container :=
      { id := i, name := n, image_id := img.id, status := "created"
        created_time := now, started_time := none, pid := none
        ip_address := st.network.length + 2, ports := "[]"
        volumes := "[]", env_vars := "{}", command := command } with hrowdef
    have hst := start_container_append_eq n pid now st row
      (fun c hc => (hf.2 n hnA).1 c hc) rfl
      (fun kv hkv => (hf.2 i hiA).2 kv hkv)
    set st2 : EngineState :=
      ⟨{ st.db with containers :=
          (st.db.containers ++ [row]).map (fun r =>
            if r.id == row.id then
              { r with
                  status := "running"
                  started_time := some now
                  pid := some pid }
            else r) }
      , st.network ++ [(row.id, ⟨row.name, row.ip_address, pid⟩)]⟩
      with hst2def
    have hrun : ContainerEngine.runCreateStart image command pid now
        ((n, i) :: rest) st =
        ((st.network.length + 2) ::
          (ContainerEngine.runCreateStart image command pid now rest st2).1,
         (ContainerEngine.runCreateStart image command pid now rest st2).2) := by
      rw [ContainerEngine.runCreateStart, hcr]
      dsimp only
      rw [hst]
    have himg2 : (st2.db.images.find?
        (fun im => im.name == image || im.id == image)).isSome := by
      rw [show st2.db.images = st.db.images from rfl, himg']
      rfl
    have hfresh2 : ContainerEngine.FreshRun st2 rest := by
      constructor
      · have hsub : (rest.map Prod.fst ++ rest.map Prod.snd).Sublist
            (((n, i) :: rest).map Prod.fst ++ ((n, i) :: rest).map Prod.snd) := by
          simp only [List.map_cons]
          exact List.Sublist.append (List.sublist_cons_self n _)
            (List.sublist_cons_self i _)
        exact hf.1.sublist hsub
      · intro s hs
        have hsA : s ∈ ((n, i) :: rest).map Prod.fst ++
            ((n, i) :: rest).map Prod.snd := by
          simp only [List.map_cons]
          rcases List.mem_append.mp hs with h | h
          · exact List.mem_append.mpr (Or.inl (List.mem_cons_of_mem n h))
          · exact List.mem_append.mpr (Or.inr (List.mem_cons_of_mem i h))
        have hsn : s ≠ n := by
          intro hEq
          subst hEq
          have := hf.1
          simp only [List.map_cons, List.nodup_append, List.nodup_cons] at this
          rcases List.mem_append.mp hs with h | h
          · exact this.1.1 (by simpa using h)
          · exact (this.2.2 (List.mem_cons_self s _) (List.mem_cons_of_mem i h)).elim
        have hsi : s ≠ i := by
          intro hEq
          subst hEq
          have := hf.1
          simp only [List.map_cons, List.nodup_append, List.nodup_cons] at this
          rcases List.mem_append.mp hs with h | h
          · exact (this.2.2 (List.mem_cons_of_mem n h) (List.mem_cons_self s _)).elim
          · exact this.2.1.1 (by simpa using h)
        constructor
        · intro c hc
          rw [show st2.db.containers =
              (st.db.containers ++ [row]).map (fun r =>
                if r.id == row.id then
                  { r with
                      status := "running"
                      started_time := some now
                      pid := some pid }
                else r) from rfl] at hc
          obtain ⟨a, ha, rfl⟩ := List.mem_map.mp hc
          have hname_id : (if a.id == row.id then
              { a with
                  status := "running"
                  started_time := some now
                  pid := some pid }
            else a).name = a.name ∧
            (if a.id == row.id then
              { a with
                  status := "running"
                  started_time := some now
                  pid := some pid }
            else a).id = a.id := by
            by_cases h : a.id == row.id <;> simp [h]
          rw [hname_id.1, hname_id.2]
          rcases List.mem_append.mp ha with h | h
          · exact (hf.2 s hsA).1 a h
          · have : a = row := by simpa using h
            subst this
            exact ⟨fun hEq => hsn hEq.symm, fun hEq => hsi hEq.symm⟩
        · intro kv hkv
          rw [show st2.network =
              st.network ++ [(row.id, ⟨row.name, row.ip_address, pid⟩)]
              from rfl] at hkv
          rcases List.mem_append.mp hkv with h | h
          · exact (hf.2 s hsA).2 kv h
          · have : kv = (row.id, ⟨row.name, row.ip_address, pid⟩) := by
              simpa using h
            subst this
            exact fun hEq => hsi hEq.symm
    have hlen2 : st2.network.length = st.network.length + 1 := by
      rw [show st2.network =
          st.network ++ [(row.id, ⟨row.name, row.ip_address, pid⟩)] from rfl]
      simp
    rw [hrun]
    simp only [List.length_cons]
    rw [ih st2 himg2 hfresh2, hlen2]
    rw [List.range'_succ]

/-- C1 (amended): each allocated IP equals gateway-base + (size of the
live network map of running containers) + 2 at the time of creation, and
status is `created`; consequently a sequence of N creations in which each
container is started before the next creation (so the live map grows by
one each time) allocates N strictly increasing, pairwise-distinct ip
octets, the first being gateway-base + 2 when the live map starts empty;
creations with no start interleaved all receive the same address. -/
theorem ip_allocation_create_start_strictly_increasing
    (image command : String) (pid now : Nat)
    (pairs : List (String × String)) (st : EngineState)
    (himg : (st.db.images.find?
      (fun im => im.name == image || im.id == image)).isSome)
    (hf : ContainerEngine.FreshRun st pairs) :
    (ContainerEngine.runCreateStart image command pid now pairs st).1 =
      List.range' (st.network.length + 2) pairs.length ∧
    (ContainerEngine.runCreateStart image command pid now
      pairs st).1.Pairwise (· < ·) ∧
    (ContainerEngine.runCreateStart image command pid now
      pairs st).1.Nodup ∧
    (st.network = [] → 0 < pairs.length →
      (ContainerEngine.runCreateStart image command pid now
        pairs st).1.head? = some 2) ∧
    ∀ (name image' command' ports volumes env_vars cid c : String)
      (now' : Nat) (st0 st' : EngineState),
      ContainerEngine.create_container name image' command' ports volumes
        env_vars cid now' st0 = (some c, st') →
      ∃ row : Container,
        st'.db.containers = st0.db.containers ++ [row] ∧
        row.ip_address = st0.network.length + 2 ∧
        row.status = "created" := by
  have hoct := runCreateStart_octets image command pid now pairs st himg hf
  refine ⟨hoct, ?_, ?_, ?_, ?_⟩
  · rw [hoct]
    exact List.pairwise_lt_range' _ _
  · rw [hoct]
    simp [List.nodup_range']
  · intro h0 hlen
    obtain ⟨k, hk⟩ := Nat.exists_eq_succ_of_ne_zero (Nat.pos_iff_ne_zero.mp hlen)
    rw [hoct, h0, hk, List.range'_succ]
    rfl
  · intro name image' command' ports volumes env_vars cid c now' st0 st' h
    exact create_container_ip name image' command' ports volumes env_vars
      cid now' st0 c st' h

/-- C1 witness: in a fresh engine holding the image `img`, creating and
starting two containers allocates the octets `[2, 3]` — strictly
increasing, distinct, first gateway-base + 2. -/
theorem ip_allocation_create_start_strictly_increasing_witness :
    (ContainerEngine.runCreateStart "img" "/bin/sh" 42 5
      [("a", "ctr_a"), ("b", "ctr_b")] stW).1 = List.range' 2 2 ∧
    (ContainerEngine.runCreateStart "img" "/bin/sh" 42 5
      [("a", "ctr_a"), ("b", "ctr_b")] stW).1.Pairwise (· < ·) :=
  ⟨(ip_allocation_create_start_strictly_increasing "img" "/bin/sh" 42 5
      [("a", "ctr_a"), ("b", "ctr_b")] stW (by decide)
      ⟨by decide, by decide⟩).1,
   (ip_allocation_create_start_strictly_increasing "img" "/bin/sh" 42 5
      [("a", "ctr_a"), ("b", "ctr_b")] stW (by decide)
      ⟨by decide, by decide⟩).2.1⟩

/-- C1 counterexample: from a fresh engine holding the image `img`,
creating two containers in sequence — no removal interleaved, exactly the
scenario of the claim — allocates the ip octet 2 (`172.17.0.2`) to BOTH
containers: the allocated addresses are neither strictly increasing nor
pairwise distinct, because `create_container` computes the octet from the
live network map of RUNNING containers, which creation never touches. -/
theorem ip_allocation_creation_only_collides :
    (ContainerEngine.runCreate "img" "/bin/sh" 0
      [("a", "ctr_a"), ("b", "ctr_b")] stW).1 = [2, 2] ∧
    ¬ (ContainerEngine.runCreate "img" "/bin/sh" 0
      [("a", "ctr_a"), ("b", "ctr_b")] stW).1.Nodup := by
  constructor
  · rfl
  · decide

/-! ## C2 — hidden blob store write -/

/-- A database holding one hidden file at path `p`, created and modified
at time 1. -/
def dbHidden : DB :=
  { DB.empty with
    hidden_files := [⟨"p", [7], 1, 1, 1, "rw-r--r--"⟩] }

/-- C2 counterexample: a row for path `p` already exists with
created-time 1; after `write_hidden_file "p"` at time 2 the stored
created-time is 2, not the pre-existing 1 — `INSERT OR REPLACE` passes
`time.time()` for both timestamps, so created-time is NOT preserved for
an existing path. -/
theorem write_hidden_file_resets_created_time :
    ((DatabaseManager.write_hidden_file "p" [7, 8] 2 dbHidden).hidden_files.find?
      (fun f => f.path == "p")).map HiddenFile.created_time = some 2 ∧
    (2 : Nat) ≠ 1 := by
  constructor
  · rfl
  · decide

/-- C2 (amended): `write(path, bytes)` upserts by path and updates the
content, size and modified-time; the stored created-time always equals
the time of the write — both timestamps are set to now on every write,
also when a row for the path already existed — and rows at other paths
are untouched. -/
theorem write_hidden_file_full_replace (path : String) (content : List Nat)
    (now : Nat) (db : DB) :
    (DatabaseManager.write_hidden_file path content now db).hidden_files.find?
      (fun f => f.path == path) =
      some ⟨path, content, content.length, now, now, "rw-r--r--"⟩ ∧
    DatabaseManager.read_hidden_file path
      (DatabaseManager.write_hidden_file path content now db) = some content ∧
    ∀ f ∈ (DatabaseManager.write_hidden_file path content now db).hidden_files,
      f.path ≠ path → f ∈ db.hidden_files := by
  have hfind : (DatabaseManager.write_hidden_file path content now
      db).hidden_files.find? (fun f => f.path == path) =
      some ⟨path, content, content.length, now, now, "rw-r--r--"⟩ := by
    unfold DatabaseManager.write_hidden_file
    rw [List.find?_append]
    have h1 : (db.hidden_files.filter (fun f => !(f.path == path))).find?
        (fun f => f.path == path) = none := by
      rw [List.find?_eq_none]
      intro f hf
      have := List.of_mem_filter hf
      simp at this
      simp [this]
    rw [h1]
    simp
  refine ⟨hfind, ?_, ?_⟩
  · unfold DatabaseManager.read_hidden_file
    rw [hfind]
    rfl
  · intro f hf hne
    unfold DatabaseManager.write_hidden_file at hf
    rcases List.mem_append.mp hf with h | h
    · exact List.mem_of_mem_filter h
    · simp at h
      rw [h] at hne
      simp at hne

/-- C2 witness: writing path `q` into an empty store yields a row with
both timestamps equal to the write time. -/
theorem write_hidden_file_full_replace_witness :
    (DatabaseManager.write_hidden_file "q" [1] 3 DB.empty).hidden_files.find?
      (fun f => f.path == "q") = some ⟨"q", [1], 1, 3, 3, "rw-r--r--"⟩ :=
  (write_hidden_file_full_replace "q" [1] 3 DB.empty).1

/-! ## C3 — orphan detection -/

/-- C3: a name is returned by `get_orphaned_packages` exactly when some
package row with that name is auto-installed and no manually-installed
package declares a direct dependency on it — single-level semantics: a
dependency declared by an auto-installed package does not protect its
target. -/
theorem get_orphaned_packages_iff (db : DB) (p : String) :
    p ∈ DatabaseManager.get_orphaned_packages db ↔
      ((∃ q ∈ db.packages, q.name = p ∧ q.auto_installed = true) ∧
       ¬ ∃ d ∈ db.dependencies, d.depends_on = p ∧
          ∃ m ∈ db.packages, m.name = d.package ∧ m.auto_installed = false) := by
  simp only [DatabaseManager.get_orphaned_packages, List.mem_filter,
    List.mem_map, Bool.not_eq_true']
  simp only [List.elem_eq_mem, decide_eq_false_iff_not,
    decide_eq_true_eq, List.mem_map, List.mem_filter, Bool.not_eq_true']
  constructor
  · rintro ⟨⟨q, ⟨hq, hauto⟩, hname⟩, hnot⟩
    refine ⟨⟨q, hq, hname, hauto⟩, ?_⟩
    rintro ⟨d, hd, hdep, m, hm, hmname, hman⟩
    exact hnot ⟨d, ⟨hd, m, ⟨hm, hman⟩, hmname⟩, hdep⟩
  · rintro ⟨⟨q, hq, hname, hauto⟩, hnot⟩
    refine ⟨⟨q, ⟨hq, hauto⟩, hname⟩, ?_⟩
    rintro ⟨d, ⟨hd, m, ⟨hm, hman⟩, hmname⟩, hdep⟩
    exact hnot ⟨d, hd, hdep, m, hm, hmname, hman⟩

/-- A package-registry fixture: `m` manually installed with declared
dependency on auto-installed `d`; auto-installed `x` with no
manually-installed dependent; auto-installed `y` depended on only by the
auto-installed `x`. -/
def dbOrphan : DB :=
  { DB.empty with
    packages :=
      [⟨"m", "1.0", 10, "m.deb", 0, false, false⟩,
       ⟨"d", "1.0", 10, "d.deb", 0, true, false⟩,
       ⟨"x", "1.0", 10, "x.deb", 0, true, false⟩,
       ⟨"y", "1.0", 10, "y.deb", 0, true, false⟩]
    dependencies := [⟨"m", "d"⟩, ⟨"x", "y"⟩] }

/-- C3 witness: on `dbOrphan`, exactly `x` and `y` are orphaned — `d` is
protected by the manually-installed `m`, while `y` is not protected by
its auto-installed dependent `x`. -/
theorem get_orphaned_packages_iff_witness :
    DatabaseManager.get_orphaned_packages dbOrphan = ["x", "y"] ∧
    "x" ∈ DatabaseManager.get_orphaned_packages dbOrphan ∧
    "d" ∉ DatabaseManager.get_orphaned_packages dbOrphan :=
  ⟨by rfl,
   (get_orphaned_packages_iff dbOrphan "x").mpr (by decide),
   fun h => ((get_orphaned_packages_iff dbOrphan "d").mp h).2 (by decide)⟩

/-! ## C7 — package removal -/

/-- C7: `remove_package` is idempotent — the source returns success
unconditionally, and a second call finds nothing left to delete — and
after any call no dependency edge mentions the removed name on either
side (both directions are cleaned). -/
theorem remove_package_idempotent_and_cleans_edges (name : String) (db : DB) :
    DatabaseManager.remove_package name
      (DatabaseManager.remove_package name db) =
      DatabaseManager.remove_package name db ∧
    ∀ d ∈ (DatabaseManager.remove_package name db).dependencies,
      d.package ≠ name ∧ d.depends_on ≠ name := by
  constructor
  · unfold DatabaseManager.remove_package
    simp [List.filter_filter]
  · intro d hd
    unfold DatabaseManager.remove_package at hd
    simp only [List.mem_filter] at hd
    have := hd.2
    simp only [Bool.not_eq_true', Bool.or_eq_false_iff] at this
    constructor
    · simpa using this.1
    · simpa using this.2

/-- C7 witness: removing `d` twice from `dbOrphan` equals removing it
once, and no dependency edge mentioning `d` survives. -/
theorem remove_package_idempotent_witness :
    DatabaseManager.remove_package "d"
      (DatabaseManager.remove_package "d" dbOrphan) =
      DatabaseManager.remove_package "d" dbOrphan ∧
    ∀ d ∈ (DatabaseManager.remove_package "d" dbOrphan).dependencies,
      d.package ≠ "d" ∧ d.depends_on ≠ "d" :=
  remove_package_idempotent_and_cleans_edges "d" dbOrphan

/-! ## C4 — repair round-trip -/

/-- A store with two packages, used to exhibit a partial repair. -/
def dbTwoPkgs : DB :=
  { DB.empty with
    packages :=
      [⟨"a", "1.0", 10, "a.deb", 0, false, false⟩,
       ⟨"b", "1.0", 10, "b.deb", 0, false, false⟩] }

/-- C4 counterexample: replaying the dump of a 2-package store while the
insert statement for package `b` fails (`except sqlite3.Error: continue`
skips just that line) leaves 1 package — neither the original row counts
nor an empty store: `repair()` CAN end in a silent partial state. -/
theorem repair_partial_state_possible :
    DatabaseManager.logicalCounts
      (DatabaseManager.repair
        (fun s => !(s == DumpStmt.pkg ⟨"b", "1.0", 10, "b.deb", 0, false, false⟩))
        false dbTwoPkgs).1 = [1, 0, 0, 0, 0, 0, 0] ∧
    DatabaseManager.logicalCounts dbTwoPkgs = [2, 0, 0, 0, 0, 0, 0] ∧
    ¬ (DatabaseManager.logicalCounts
        (DatabaseManager.repair
          (fun s => !(s == DumpStmt.pkg ⟨"b", "1.0", 10, "b.deb", 0, false, false⟩))
          false dbTwoPkgs).1 = DatabaseManager.logicalCounts dbTwoPkgs ∨
       (DatabaseManager.logicalCounts
        (DatabaseManager.repair
          (fun s => !(s == DumpStmt.pkg ⟨"b", "1.0", 10, "b.deb", 0, false, false⟩))
          false dbTwoPkgs).1).sum = 0) := by
  refine ⟨by rfl, by rfl, ?_⟩
  decide

/-- C4 (amended): `repair()` always leaves a backup of the original file;
on a dump/replay abort it leaves an empty store; otherwise each table
keeps exactly the rows whose replayed dump statement succeeded — the full
original content when every statement succeeds, but a silent partial
subset (row counts pointwise ≤ the original) when individual statements
fail. -/
theorem repair_backup_and_replay_subset (ok : DumpStmt → Bool)
    (dumpAborts : Bool) (db : DB) :
    (DatabaseManager.repair ok dumpAborts db).2 = true ∧
    List.Forall₂ (· ≤ ·)
      (DatabaseManager.logicalCounts (DatabaseManager.repair ok dumpAborts db).1)
      (DatabaseManager.logicalCounts db) ∧
    (dumpAborts = true →
      (DatabaseManager.repair ok dumpAborts db).1 = DB.empty) ∧
    (dumpAborts = false → (∀ s, ok s = true) →
      (DatabaseManager.repair ok dumpAborts db).1 = db) := by
  unfold DatabaseManager.repair
  rcases dumpAborts with _ | _
  · simp only [if_false, Bool.false_eq_true]
    refine ⟨by simp, ?_, fun h => by simp at h, fun _ hok => ?_⟩
    · unfold DatabaseManager.logicalCounts DatabaseManager.replayDump
      refine List.Forall₂.cons (List.length_filter_le _ _) ?_
      refine List.Forall₂.cons (List.length_filter_le _ _) ?_
      refine List.Forall₂.cons (List.length_filter_le _ _) ?_
      refine List.Forall₂.cons (List.length_filter_le _ _) ?_
      refine List.Forall₂.cons (List.length_filter_le _ _) ?_
      refine List.Forall₂.cons (List.length_filter_le _ _) ?_
      exact List.Forall₂.cons (List.length_filter_le _ _) List.Forall₂.nil
    · unfold DatabaseManager.replayDump
      have hall : ∀ {α : Type} (l : List α) (p : α → Bool),
          (∀ a, p a = true) → l.filter p = l := by
        intro α l p hp
        induction l with
        | nil => rfl
        | cons a t iht => simp [List.filter_cons, hp a, iht]
      cases db
      simp only [DB.mk.injEq]
      exact ⟨hall _ _ (fun a => hok _), hall _ _ (fun a => hok _),
        hall _ _ (fun a => hok _), hall _ _ (fun a => hok _),
        hall _ _ (fun a => hok _), hall _ _ (fun a => hok _),
        hall _ _ (fun a => hok _)⟩
  · simp only [if_true]
    refine ⟨by simp, ?_, fun _ => by simp, fun h => by simp at h⟩
    unfold DatabaseManager.logicalCounts DB.empty
    refine List.Forall₂.cons (Nat.zero_le _) ?_
    refine List.Forall₂.cons (Nat.zero_le _) ?_
    refine List.Forall₂.cons (Nat.zero_le _) ?_
    refine List.Forall₂.cons (Nat.zero_le _) ?_
    refine List.Forall₂.cons (Nat.zero_le _) ?_
    refine List.Forall₂.cons (Nat.zero_le _) ?_
    exact List.Forall₂.cons (Nat.zero_le _) List.Forall₂.nil

/-- C4 witness: with every statement replaying successfully and no abort,
repair of `dbTwoPkgs` preserves the store and reports a backup. -/
theorem repair_backup_and_replay_subset_witness :
    (DatabaseManager.repair (fun _ => true) false dbTwoPkgs).2 = true ∧
    (DatabaseManager.repair (fun _ => true) false dbTwoPkgs).1 = dbTwoPkgs :=
  ⟨(repair_backup_and_replay_subset (fun _ => true) false dbTwoPkgs).1,
   (repair_backup_and_replay_subset (fun _ => true) false dbTwoPkgs).2.2.2
     rfl (fun _ => rfl)⟩

/-! ## C8 — full reset -/

/-- C8 counterexample: the input `" DELETE EVERYTHING"` is NOT the exact
confirmation phrase, yet `_cmd_dbclean` strips the input before the
comparison and wipes a non-empty store anyway. -/
theorem dbclean_padded_phrase_still_wipes :
    (" DELETE EVERYTHING" : String) ≠ "DELETE EVERYTHING" ∧
    KernelAddCLI.cmd_dbclean " DELETE EVERYTHING" dbTwoPkgs ≠ dbTwoPkgs ∧
    KernelAddCLI.cmd_dbclean " DELETE EVERYTHING" dbTwoPkgs = DB.empty := by
  refine ⟨by decide, ?_, by rfl⟩
  intro h
  have : DB.empty = dbTwoPkgs := by
    rw [← h]
    rfl
  exact absurd (congrArg (fun d => d.packages.length) this) (by decide)

/-- C8 (amended): `_cmd_dbclean` with an input whose whitespace-stripped
form differs from `DELETE EVERYTHING` leaves every table unchanged; when
the stripped input equals the phrase (so also for the phrase surrounded
by whitespace), every table reports zero rows afterwards. -/
theorem dbclean_requires_stripped_phrase (confirm : String) (db : DB) :
    (KernelAddCLI.strip confirm ≠ "DELETE EVERYTHING" →
      KernelAddCLI.cmd_dbclean confirm db = db) ∧
    (KernelAddCLI.strip confirm = "DELETE EVERYTHING" →
      DatabaseManager.logicalCounts (KernelAddCLI.cmd_dbclean confirm db)
        = [0, 0, 0, 0, 0, 0, 0]) := by
  unfold KernelAddCLI.cmd_dbclean
  constructor
  · intro h
    rw [if_neg (by simpa using h)]
  · intro h
    rw [if_pos (by simpa using h)]
    rfl

/-- C8 witness: a non-matching confirmation leaves `dbTwoPkgs` unchanged;
the exact phrase empties every table. -/
theorem dbclean_requires_stripped_phrase_witness :
    KernelAddCLI.cmd_dbclean "no" dbTwoPkgs = dbTwoPkgs ∧
    DatabaseManager.logicalCounts
      (KernelAddCLI.cmd_dbclean "DELETE EVERYTHING" dbTwoPkgs)
      = [0, 0, 0, 0, 0, 0, 0] :=
  ⟨(dbclean_requires_stripped_phrase "no" dbTwoPkgs).1 (by decide),
   (dbclean_requires_stripped_phrase "DELETE EVERYTHING" dbTwoPkgs).2 (by decide)⟩

/-! ## C6 — container name uniqueness -/

/-- C6: when some container row already bears `name`, `create_container`
returns failure and the state — every table and the live network map — is
exactly unchanged, whether the image resolves (the duplicate-name check
fails) or not (the image lookup fails first). -/
theorem create_container_duplicate_name_no_mutation (st : EngineState)
    (name image command ports volumes env_vars cid : String) (now : Nat)
    (h : ∃ c ∈ st.db.containers, c.name = name) :
    ContainerEngine.create_container name image command ports volumes
      env_vars cid now st = (none, st) := by
  unfold ContainerEngine.create_container
  rcases hfind : st.db.images.find?
      (fun i => i.name == image || i.id == image) with _ | img
  · rw [hfind]
  · rw [hfind]
    have hany : (st.db.containers.any fun c => c.name == name) = true := by
      obtain ⟨c, hc, hname⟩ := h
      exact List.any_eq_true.mpr ⟨c, hc, by simp [hname]⟩
    simp [hany]

/-- A created (never started) container and an engine state holding it
together with its image. -/
def ctrCreated : Container :=
  { id := "ctr_1", name := "c1", image_id := "img_1", status := "created"
    created_time := 0, started_time := none, pid := none, ip_address := 2
    ports := "[]", volumes := "[]", env_vars := "{}", command := "/bin/sh" }

/-- Engine state with one created container `c1` over image `img`. -/
def stOne : EngineState := ⟨{ dbW with containers := [ctrCreated] }, []⟩

/-- C6 witness: a second creation under the taken name `c1` fails and
leaves the state untouched. -/
theorem create_container_duplicate_name_no_mutation_witness :
    ContainerEngine.create_container "c1" "img" "/bin/sh" "[]" "[]" "{}"
      "ctr_2" 9 stOne = (none, stOne) :=
  create_container_duplicate_name_no_mutation stOne "c1" "img" "/bin/sh"
    "[]" "[]" "{}" "ctr_2" 9 ⟨ctrCreated, by decide, rfl⟩

/-! ## C10 — stop on any resolvable container -/

/-- C10: `stop_container` succeeds on ANY container it resolves —
including one in status `created` that was never started — and applies
the same `status = stopped, pid = NULL` update to the resolved row
regardless of its current status (a created → stopped transition absent
from the spec's state machine). -/
theorem stop_container_any_status (st : EngineState) (x : String)
    (c : Container) (h : ContainerEngine.findContainer st x = some c) :
    (ContainerEngine.stop_container x st).1 = true ∧
    (∃ r ∈ (ContainerEngine.stop_container x st).2.db.containers,
      r.id = c.id ∧ r.status = "stopped" ∧ r.pid = none) ∧
    ∀ r ∈ (ContainerEngine.stop_container x st).2.db.containers,
      r.id = c.id → r.status = "stopped" ∧ r.pid = none := by
  unfold ContainerEngine.stop_container
  rw [h]
  refine ⟨rfl, ?_, ?_⟩
  · refine ⟨{ c with status := "stopped", pid := none }, ?_, rfl, rfl, rfl⟩
    have hc := List.mem_of_find?_eq_some h
    have hmem := List.mem_map_of_mem
      (fun r => if r.id == c.id then { r with status := "stopped", pid := none }
        else r) hc
    simpa using hmem
  · intro r hr hid
    obtain ⟨a, ha, rfl⟩ := List.mem_map.mp hr
    by_cases hb : (a.id == c.id) = true
    · simp [hb]
    · rw [if_neg hb] at hid ⊢
      exact absurd hid (by simpa using hb)

/-- C10 witness: stopping the never-started `c1` succeeds and leaves it
`stopped` with no pid. -/
theorem stop_container_any_status_witness :
    (ContainerEngine.stop_container "c1" stOne).1 = true ∧
    (∃ r ∈ (ContainerEngine.stop_container "c1" stOne).2.db.containers,
      r.id = ctrCreated.id ∧ r.status = "stopped" ∧ r.pid = none) ∧
    ∀ r ∈ (ContainerEngine.stop_container "c1" stOne).2.db.containers,
      r.id = ctrCreated.id → r.status = "stopped" ∧ r.pid = none :=
  stop_container_any_status stOne "c1" ctrCreated (by decide)

/-! ## C5 — start / remove state machine -/

/-- After `start_container` resolves a row, resolving the same name-or-id
again yields that row updated to `running` with the fresh pid: the update
rewrites status/pid/started_time only, so resolution by name or id is
unchanged. -/
theorem findContainer_start (st : EngineState) (x : String) (pid now : Nat)
    (c : Container) (h : ContainerEngine.findContainer st x = some c) :
    ContainerEngine.findContainer
      (ContainerEngine.start_container x pid now st).2 x =
      some { c with
        status := "running"
        started_time := some now
        pid := some pid } := by
  unfold ContainerEngine.start_container
  rw [h]
  unfold ContainerEngine.findContainer at h ⊢
  rw [show (⟨{ st.db with containers := st.db.containers.map (fun r =>
      if r.id == c.id then
        { r with status := "running", started_time := some now, pid := some pid }
      else r) },
      ContainerEngine.netStore c.id ⟨c.name, c.ip_address, pid⟩ st.network⟩
      : EngineState).db.containers = st.db.containers.map (fun r =>
      if r.id == c.id then
        { r with status := "running", started_time := some now, pid := some pid }
      else r) from rfl]
  rw [List.find?_map]
  have hpf : ((fun cc => cc.name == x || cc.id == x) ∘ (fun r =>
      if r.id == c.id then
        { r with status := "running", started_time := some now, pid := some pid }
      else r)) = (fun cc : Container => cc.name == x || cc.id == x) := by
    funext r
    by_cases hb : (r.id == c.id) = true <;> simp [Function.comp, hb]
  rw [hpf, h]
  simp

/-- C5: starting a resolvable `created` container succeeds and yields
status `running` with a non-null pid; removing it without force then
fails and changes nothing; removing it with force succeeds and its row no
longer appears in `list_containers(all=true)`; and in general, for any
resolvable container, removal fails exactly when the container is running
and force is not set. -/
theorem start_then_remove_state_machine (st : EngineState) (x : String)
    (pid now : Nat) (c : Container)
    (h : ContainerEngine.findContainer st x = some c)
    (hc : c.status = "created") :
    (ContainerEngine.start_container x pid now st).1 = true ∧
    (∃ c1, ContainerEngine.findContainer
        (ContainerEngine.start_container x pid now st).2 x = some c1 ∧
      c1.status = "running" ∧ c1.pid = some pid) ∧
    ContainerEngine.remove_container x false
      (ContainerEngine.start_container x pid now st).2 =
      (false, (ContainerEngine.start_container x pid now st).2) ∧
    (ContainerEngine.remove_container x true
      (ContainerEngine.start_container x pid now st).2).1 = true ∧
    (∀ r ∈ ContainerEngine.list_containers true
        (ContainerEngine.remove_container x true
          (ContainerEngine.start_container x pid now st).2).2,
      r.id ≠ c.id) ∧
    ∀ (st' : EngineState) (y : String) (d : Container) (force : Bool),
      ContainerEngine.findContainer st' y = some d →
      ((ContainerEngine.remove_container y force st').1 = false ↔
        (d.status = "running" ∧ force = false)) := by
  have hf1 := findContainer_start st x pid now c h
  have h1 : (ContainerEngine.start_container x pid now st).1 = true := by
    unfold ContainerEngine.start_container
    rw [h]
  have hremF : ContainerEngine.remove_container x false
      (ContainerEngine.start_container x pid now st).2 =
      (false, (ContainerEngine.start_container x pid now st).2) := by
    unfold ContainerEngine.remove_container
    rw [hf1]
    rfl
  have hremT : ContainerEngine.remove_container x true
      (ContainerEngine.start_container x pid now st).2 =
      (true, ⟨{ (ContainerEngine.start_container x pid now st).2.db with
          containers :=
            (ContainerEngine.start_container x pid now st).2.db.containers.filter
              (fun rr => !(rr.id == c.id)) },
        (ContainerEngine.start_container x pid now st).2.network⟩) := by
    unfold ContainerEngine.remove_container
    rw [hf1]
    rfl
  refine ⟨h1, ⟨_, hf1, rfl, rfl⟩, hremF, by rw [hremT], ?_, ?_⟩
  · intro r hr
    rw [hremT] at hr
    unfold ContainerEngine.list_containers at hr
    simp only [if_true] at hr
    have hr2 := List.mem_mergeSort.mp hr
    have hr3 : r ∈ (ContainerEngine.start_container x pid
        now st).2.db.containers.filter (fun rr => !(rr.id == c.id)) := hr2
    have := (List.mem_filter.mp hr3).2
    simpa using this
  · intro st' y d force hd
    unfold ContainerEngine.remove_container
    rw [hd]
    dsimp only
    by_cases hb : (d.status == "running" && !force) = true
    · rw [if_pos hb]
      simp only [Bool.and_eq_true, beq_iff_eq, Bool.not_eq_true'] at hb
      simp [hb.1, hb.2]
    · rw [if_neg hb]
      simp only [Bool.and_eq_true, beq_iff_eq, Bool.not_eq_true'] at hb
      simp only [not_and] at hb
      constructor
      · intro hfalse
        exact absurd hfalse (by simp)
      · rintro ⟨hs, hfo⟩
        exact absurd (hb hs) (by simp [hfo])

/-- C5 witness: the scenario run on the concrete `created` container
`c1` of `stOne` with pid 42. -/
theorem start_then_remove_state_machine_witness :
    ctrCreated.status = "created" ∧
    (ContainerEngine.start_container "c1" 42 7 stOne).1 = true ∧
    ContainerEngine.remove_container "c1" false
      (ContainerEngine.start_container "c1" 42 7 stOne).2 =
      (false, (ContainerEngine.start_container "c1" 42 7 stOne).2) ∧
    (ContainerEngine.remove_container "c1" true
      (ContainerEngine.start_container "c1" 42 7 stOne).2).1 = true :=
  ⟨rfl,
   (start_then_remove_state_machine stOne "c1" 42 7 ctrCreated
     (by decide) rfl).1,
   (start_then_remove_state_machine stOne "c1" 42 7 ctrCreated
     (by decide) rfl).2.2.1,
   (start_then_remove_state_machine stOne "c1" 42 7 ctrCreated
     (by decide) rfl).2.2.2.1⟩

/-! ## C9 — status/pid row invariant -/

/-- Lemma: `create_container` preserves the row invariant: on success it appends
a `created` row with no pid. -/
theorem inv_create (name image command ports volumes env_vars cid : String)
    (now : Nat) (st : EngineState) (inv : ContainerEngine.EngineInv st) :
    ContainerEngine.EngineInv
      (ContainerEngine.create_container name image command ports volumes
        env_vars cid now st).2 := by
  unfold ContainerEngine.create_container
  rcases hfind : st.db.images.find?
      (fun i => i.name == image || i.id == image) with _ | img
  · rw [hfind]
    exact inv
  · rw [hfind]
    dsimp only
    by_cases hb : (st.db.containers.any fun c => c.name == name) = true
    · rw [if_pos hb]
      exact inv
    · rw [if_neg hb]
      intro c hcmem
      rcases List.mem_append.mp hcmem with hmem | hmem
      · exact inv c hmem
      · have : c = _ := List.mem_singleton.mp hmem
        subst this
        exact ⟨Or.inl rfl, fun hpid => absurd rfl hpid⟩

/-- Lemma: `start_container` preserves the row invariant: the resolved row
becomes `running` with a pid, others are untouched. -/
theorem inv_start (x : String) (pid now : Nat) (st : EngineState)
    (inv : ContainerEngine.EngineInv st) :
    ContainerEngine.EngineInv
      (ContainerEngine.start_container x pid now st).2 := by
  unfold ContainerEngine.start_container
  rcases hfind : ContainerEngine.findContainer st x with _ | c0
  · exact inv
  · dsimp only
    intro r hr
    obtain ⟨a, ha, rfl⟩ := List.mem_map.mp hr
    by_cases hb : (a.id == c0.id) = true
    · rw [if_pos hb]
      exact ⟨Or.inr (Or.inl rfl), fun _ => rfl⟩
    · rw [if_neg hb]
      exact inv a ha

/-- Lemma: `stop_container` preserves the row invariant: the resolved row
becomes `stopped` with no pid, others are untouched. -/
theorem inv_stop (x : String) (st : EngineState)
    (inv : ContainerEngine.EngineInv st) :
    ContainerEngine.EngineInv (ContainerEngine.stop_container x st).2 := by
  unfold ContainerEngine.stop_container
  rcases hfind : ContainerEngine.findContainer st x with _ | c0
  · exact inv
  · dsimp only
    intro r hr
    obtain ⟨a, ha, rfl⟩ := List.mem_map.mp hr
    by_cases hb : (a.id == c0.id) = true
    · rw [if_pos hb]
      exact ⟨Or.inr (Or.inr rfl), fun hpid => absurd rfl hpid⟩
    · rw [if_neg hb]
      exact inv a ha

/-- C9: in every state reachable by createContainer/start/stop from a
fresh engine, every container row's status is one of
`created`/`running`/`stopped`, and its pid is non-null only when the
status is `running`: creation inserts `created` with NULL pid, start sets
`running` with a pid, stop sets `stopped` and clears the pid. -/
theorem container_status_pid_invariant (st : EngineState)
    (h : ContainerEngine.Reachable st) : ContainerEngine.EngineInv st := by
  induction h with
  | init db hc =>
    intro c hcmem
    have : c ∈ db.containers := hcmem
    rw [hc] at this
    exact absurd this (List.not_mem_nil c)
  | create name image command ports volumes env_vars cid now hst ih =>
    exact inv_create name image command ports volumes env_vars cid now _ ih
  | start name_or_id pid now hst ih =>
    exact inv_start name_or_id pid now _ ih
  | stop name_or_id hst ih =>
    exact inv_stop name_or_id _ ih

/-- C9 witness: the invariant holds in the concrete reachable state
obtained by creating one container from a fresh engine over `dbW`. -/
theorem container_status_pid_invariant_witness :
    ContainerEngine.EngineInv
      (ContainerEngine.create_container "c1" "img" "/bin/sh" "[]" "[]" "{}"
        "ctr_1" 0 ⟨dbW, []⟩).2 :=
  container_status_pid_invariant _
    (ContainerEngine.Reachable.create "c1" "img" "/bin/sh" "[]" "[]" "{}"
      "ctr_1" 0 (ContainerEngine.Reachable.init dbW rfl))
